import Mathlib

/-!
Verification of the board interaction state machine implemented by
ChessBoardWidget in src/chess_app.py.

The widget delegates all chess rules to the external python-chess library
(board representation, legal-move generation, check detection, ...), which
the specification treats as an external collaborator.  We therefore embed
the widget over an abstract RulesEngine record whose fields mirror the
python-chess operations the widget actually calls: Board() / board.reset()
(reset), board.push (push), board.legal_moves (legal_moves),
board.piece_at (piece_at), board.turn (turn), board.is_check (is_check),
board.is_capture (is_capture) and board.is_en_passant (is_en_passant).
A move animation, a bounce animation and the repaint requests (update())
are driven by Qt outside the core; we model an animation object only by
its presence (a Bool) plus the scalar value its ticks drive, and repaint
as the state effect of paintEvent (the only state mutation a repaint can
perform is starting the king bounce).

Exceptions that python would raise (AttributeError on a None dereference,
TypeError on board.push(None)) are modelled by Except Unit: an operation
returns Except.error () exactly where the python code would raise before
mutating any state.
-/

/-- Piece as in python-chess: a piece type (PAWN = 1, ..., QUEEN = 5,
KING = 6) and a color (true = chess.WHITE, false = chess.BLACK). -/
structure Piece where
  ptype : Nat
  pcolor : Bool
  deriving DecidableEq, Repr

/-- Move as in python-chess: origin square, destination square (squares are
0..63, square = rank * 8 + file) and an optional promotion piece type.
Equality is componentwise, as for chess.Move. -/
structure Move where
  from_square : Nat
  to_square : Nat
  promotion : Option Nat
  deriving DecidableEq, Repr

/-- Interface of the external rules engine (python-chess), restricted to the
operations ChessBoardWidget calls.  reset is the initial position
(chess.Board() and board.reset()); push applies a move; legal_moves
enumerates the legal moves of a position (membership in the python
generator coincides with membership in the enumerated list). -/
structure RulesEngine where
  Position : Type
  reset : Position
  push : Position → Move → Position
  legal_moves : Position → List Move
  piece_at : Position → Nat → Option Piece
  turn : Position → Bool
  is_check : Position → Bool
  is_capture : Position → Move → Bool
  is_en_passant : Position → Move → Bool

/-- State of ChessBoardWidget (the fields set in __init__ that the core
mutates).  Animation objects (self.anim, self.bounceAnim,
self.kingBounceAnim) are modelled by their presence: true when the python
attribute holds a QPropertyAnimation object, false when it is None.  The
float properties anim_progress, bounceScale and kingBounceScale back the
python attributes _anim_progress, _bounce_scale and _king_bounce_scale and
are written by Qt ticks through trivial setters. -/
structure ChessBoardWidget (E : RulesEngine) where
  board : E.Position
  selected_square : Option Nat
  move_history : List Move
  current_move_index : Nat
  animating : Bool
  anim_progress : Rat
  pending_move : Option Move
  anim_start_point : Nat × Nat
  anim_end_point : Nat × Nat
  anim : Bool
  bounceScale : Rat
  bounceAnim : Bool
  kingBounceScale : Rat
  kingBounceAnim : Bool

/-- Square size in pixels, self.square_size = 60. -/
def square_size : Nat := 60

/-- Translation of mouse coordinates to a square, as in mousePressEvent:
col = x // square_size, row = y // square_size,
square = chess.square(col, 7 - row) = (7 - row) * 8 + col. -/
def squareAt (x y : Nat) : Nat :=
  (7 - y / square_size) * 8 + x / square_size

/-- Initial widget state, from ChessBoardWidget.__init__. -/
def initState (E : RulesEngine) : ChessBoardWidget E where
  board := E.reset
  selected_square := none
  move_history := []
  current_move_index := 0
  animating := false
  anim_progress := 0
  pending_move := none
  anim_start_point := (0, 0)
  anim_end_point := (0, 0)
  anim := false
  bounceScale := 1
  bounceAnim := false
  kingBounceScale := 1
  kingBounceAnim := false

/-- Replaying a prefix of the move history from the initial position, the
body of resetBoardToIndex: board.reset() followed by board.push(move) for
every move in move_history[:current_move_index]. -/
def replayTo (E : RulesEngine) (history : List Move) (index : Nat) : E.Position :=
  (history.take index).foldl E.push E.reset

/-- ChessBoardWidget.resetBoardToIndex: recompute the board by replay; the
trailing self.update() only schedules a repaint. -/
def resetBoardToIndex (E : RulesEngine) (s : ChessBoardWidget E) : ChessBoardWidget E :=
  { s with board := replayTo E s.move_history s.current_move_index }

/-- Key inputs the widget distinguishes in keyPressEvent: Qt.Key_Left,
Qt.Key_Right, and everything else (forwarded to the superclass, which does
not touch the widget state). -/
inductive Key where
  | left
  | right
  | other
  deriving DecidableEq, Repr

/-- ChessBoardWidget.keyPressEvent: arrow keys navigate the history by
moving current_move_index and replaying; other keys are handed to the
superclass. -/
def keyPressEvent (E : RulesEngine) (s : ChessBoardWidget E) : Key → ChessBoardWidget E
  | Key.left =>
      if 0 < s.current_move_index then
        resetBoardToIndex E { s with current_move_index := s.current_move_index - 1 }
      else s
  | Key.right =>
      if s.current_move_index < s.move_history.length then
        resetBoardToIndex E { s with current_move_index := s.current_move_index + 1 }
      else s
  | Key.other => s

/-- ChessBoardWidget.bouncePiece: create and start a fresh one-shot
QPropertyAnimation on bounceScale.  Starting does not itself write the
scale; Qt ticks do. -/
def bouncePiece (E : RulesEngine) (s : ChessBoardWidget E) : ChessBoardWidget E :=
  { s with bounceAnim := true }

/-- ChessBoardWidget.startKingBounce: create and start the looping king
bounce animation, but only when none exists (if self.kingBounceAnim is
None). -/
def startKingBounce (E : RulesEngine) (s : ChessBoardWidget E) : ChessBoardWidget E :=
  if s.kingBounceAnim then s else { s with kingBounceAnim := true }

/-- ChessBoardWidget.stopKingBounce: if a king bounce animation exists,
stop it, drop it and reset _king_bounce_scale to 1.0. -/
def stopKingBounce (E : RulesEngine) (s : ChessBoardWidget E) : ChessBoardWidget E :=
  if s.kingBounceAnim then { s with kingBounceAnim := false, kingBounceScale := 1 } else s

/-- ChessBoardWidget.startAnimation: record the pending move, its source
and destination pixel points, raise the animating flag, reset the progress
and start a fresh QPropertyAnimation on anim_progress. -/
def startAnimation (E : RulesEngine) (s : ChessBoardWidget E) (move : Move) :
    ChessBoardWidget E :=
  { s with
    pending_move := some move
    anim_start_point :=
      ((move.from_square % 8) * square_size, (7 - move.from_square / 8) * square_size)
    anim_end_point :=
      ((move.to_square % 8) * square_size, (7 - move.to_square / 8) * square_size)
    animating := true
    anim_progress := 0
    anim := true }

/-- Move construction in the second-click branch of mousePressEvent:
chess.Move(selected, square), promoted to a Queen (= 5) when the moving
piece is a pawn (= 1) and the destination rank is 0 or 7. -/
def constructedMove (piece : Piece) (sel square : Nat) : Move :=
  if piece.ptype = 1 ∧ (square / 8 = 0 ∨ square / 8 = 7) then
    { from_square := sel, to_square := square, promotion := some 5 }
  else
    { from_square := sel, to_square := square, promotion := none }

/-- ChessBoardWidget.mousePressEvent.  An early return while animating; a
first click selects a piece of the side to move (if any) and bounces it; a
second click builds a move, starts the animation when the move is legal,
and in either case drops the selection.  The python expression
self.board.piece_at(self.selected_square).piece_type raises AttributeError
when the selected square is empty: that path is Except.error (), and it is
reached before any state is mutated. -/
def mousePressEvent (E : RulesEngine) (s : ChessBoardWidget E) (x y : Nat) :
    Except Unit (ChessBoardWidget E) :=
  if s.animating then Except.ok s else
  match s.selected_square with
  | none =>
      match E.piece_at s.board (squareAt x y) with
      | some piece =>
          if piece.pcolor = E.turn s.board then
            Except.ok (bouncePiece E { s with selected_square := some (squareAt x y) })
          else Except.ok s
      | none => Except.ok s
  | some sel =>
      match E.piece_at s.board sel with
      | none => Except.error ()
      | some piece =>
          let move := constructedMove piece sel (squareAt x y)
          if move ∈ E.legal_moves s.board then
            Except.ok { startAnimation E s move with selected_square := none }
          else
            Except.ok { s with selected_square := none }

/-- ChessBoardWidget.finishAnimation: push the pending move on the board,
truncate the redo branch of the history, append the move, set the index to
the new length, clear the pending move and the animating flag, and stop
the king bounce when the new position is not check.  checkGameStatus only
queries the engine and shows dialogs, so it has no core state effect.
board.push(self.pending_move) with pending_move = None raises in python,
modelled by Except.error (). -/
def finishAnimation (E : RulesEngine) (s : ChessBoardWidget E) :
    Except Unit (ChessBoardWidget E) :=
  match s.pending_move with
  | none => Except.error ()
  | some m =>
      let board := E.push s.board m
      let hist0 :=
        if s.current_move_index < s.move_history.length then
          s.move_history.take s.current_move_index
        else s.move_history
      let hist := hist0 ++ [m]
      let s1 : ChessBoardWidget E :=
        { s with
          board := board
          move_history := hist
          current_move_index := hist.length
          pending_move := none
          animating := false }
      if E.is_check board then Except.ok s1 else Except.ok (stopKingBounce E s1)

/-- Piece-drawing suppression in paintEvent while a move is animating: the
piece on the pending move's from-square is skipped, and the piece on its
to-square is skipped when it belongs to the opponent of the side to move. -/
def paintSkips (E : RulesEngine) (s : ChessBoardWidget E) (sq : Nat) : Bool :=
  if s.animating then
    match s.pending_move with
    | some pm =>
        if sq == pm.from_square then true
        else if sq == pm.to_square then
          match E.piece_at s.board sq with
          | some p => p.pcolor != E.turn s.board
          | none => false
        else false
    | none => false
  else false

/-- State effect of ChessBoardWidget.paintEvent.  Painting is pure except
for one mutation: while drawing a king of the side to move during check,
startKingBounce is invoked when no king bounce is running.  The drawing
loop visits every square whose piece is not suppressed by the animation
skip rule. -/
def paintEvent (E : RulesEngine) (s : ChessBoardWidget E) : ChessBoardWidget E :=
  if E.is_check s.board &&
      (List.range 64).any (fun sq =>
        !paintSkips E s sq &&
        (match E.piece_at s.board sq with
         | some p => p.ptype == 6 && p.pcolor == E.turn s.board
         | none => false)) then
    startKingBounce E s
  else s

/-- The per-move captured-square computation of the capture-highlight block
of paintEvent: for an en-passant capture by White the square one rank
behind the destination (to_square - 8), for an en-passant capture by Black
the square one rank ahead (to_square + 8), for every other capture the
destination itself. -/
def capturedSquare (E : RulesEngine) (pos : E.Position) (m : Move) : Nat :=
  if E.is_en_passant pos m then
    match E.piece_at pos m.from_square with
    | some piece => if piece.pcolor = true then m.to_square - 8 else m.to_square + 8
    | none => m.to_square + 8
  else m.to_square

/-- The killable squares collected by paintEvent for a selected origin: the
captured squares of every legal capture move from that origin.  The source
stores them in a set; only membership matters for the display. -/
def killable_squares (E : RulesEngine) (pos : E.Position) (sel : Nat) : List Nat :=
  ((E.legal_moves pos).filter fun m => m.from_square == sel && E.is_capture pos m).map
    (capturedSquare E pos)

/-- Reachable widget states.  The transitions are exactly the external
events Qt delivers to the widget: mouse clicks (when the handler returns
rather than raising), key presses, completion of a running move animation
(Qt fires finished only while the animation started by startAnimation is
running, hence only while animating), repaints, and animation ticks that
drive the three scalar properties while their animation objects run. -/
inductive Reach (E : RulesEngine) : ChessBoardWidget E → Prop where
  | init : Reach E (initState E)
  | click (s s' : ChessBoardWidget E) (x y : Nat) :
      Reach E s → mousePressEvent E s x y = Except.ok s' → Reach E s'
  | key (s : ChessBoardWidget E) (k : Key) :
      Reach E s → Reach E (keyPressEvent E s k)
  | finish (s s' : ChessBoardWidget E) :
      Reach E s → s.animating = true → finishAnimation E s = Except.ok s' → Reach E s'
  | paint (s : ChessBoardWidget E) :
      Reach E s → Reach E (paintEvent E s)
  | tickMove (s : ChessBoardWidget E) (q : Rat) :
      Reach E s → s.anim = true → Reach E { s with anim_progress := q }
  | tickBounce (s : ChessBoardWidget E) (q : Rat) :
      Reach E s → s.bounceAnim = true → Reach E { s with bounceScale := q }
  | tickKing (s : ChessBoardWidget E) (q : Rat) :
      Reach E s → s.kingBounceAnim = true → Reach E { s with kingBounceScale := q }

/-- Positions of a small concrete rules-engine instance used to exercise
the widget on closed runs: a list of occupied squares with their pieces,
plus the side to move. -/
structure ToyPos where
  placement : List (Nat × Piece)
  turnW : Bool
  deriving DecidableEq, Repr

/-- Piece lookup of the toy engine. -/
def toyAt (p : ToyPos) (sq : Nat) : Option Piece :=
  (p.placement.find? fun e => e.1 == sq).map (fun e => e.2)

/-- Move application of the toy engine: the piece on the origin square is
transferred to the destination, anything on either square disappears, and
the side to move flips. -/
def toyPush (p : ToyPos) (m : Move) : ToyPos where
  placement :=
    (p.placement.filter fun e => e.1 != m.from_square && e.1 != m.to_square) ++
      (match p.placement.find? (fun e => e.1 == m.from_square) with
       | some e => [(m.to_square, e.2)]
       | none => [])
  turnW := !p.turnW

/-- Toy engine with a white pawn on e2 (square 12) and a black pawn on e7
(square 52); White may play e2e4 (12 to 28) and Black e7e5 (52 to 36); no
position ever counts as check. -/
def toyE : RulesEngine where
  Position := ToyPos
  reset := { placement := [(12, ⟨1, true⟩), (52, ⟨1, false⟩)], turnW := true }
  push := toyPush
  legal_moves := fun p =>
    if p.turnW then [⟨12, 28, none⟩] else [⟨52, 36, none⟩]
  piece_at := toyAt
  turn := fun p => p.turnW
  is_check := fun _ => false
  is_capture := fun _ _ => false
  is_en_passant := fun _ _ => false

/-- Toy engine with a white pawn on e2 (square 12) and a black king on e8
(square 60); White may play e2e4, and every position with Black to move
counts as check. -/
def toyE2 : RulesEngine where
  Position := ToyPos
  reset := { placement := [(12, ⟨1, true⟩), (60, ⟨6, false⟩)], turnW := true }
  push := toyPush
  legal_moves := fun p => if p.turnW then [⟨12, 28, none⟩] else []
  piece_at := toyAt
  turn := fun p => p.turnW
  is_check := fun p => !p.turnW
  is_capture := fun _ _ => false
  is_en_passant := fun _ _ => false

/-- Result state of a click on the toy engine, defaulting to the input
state if the handler raises (it never does on the runs below). -/
def clickD (s : ChessBoardWidget toyE) (x y : Nat) : ChessBoardWidget toyE :=
  match mousePressEvent toyE s x y with
  | Except.ok s' => s'
  | Except.error _ => s

/-- Result state of an animation completion on the toy engine, defaulting
to the input state if the handler raises. -/
def finD (s : ChessBoardWidget toyE) : ChessBoardWidget toyE :=
  match finishAnimation toyE s with
  | Except.ok s' => s'
  | Except.error _ => s

/-- Concrete run on toyE: select the e2 pawn (pixel 240, 360). -/
def d1 : ChessBoardWidget toyE := clickD (initState toyE) 240 360

/-- Click e4 (pixel 240, 240): the legal move e2e4 starts animating. -/
def d2 : ChessBoardWidget toyE := clickD d1 240 240

/-- The e2e4 animation completes and the move is committed. -/
def d3 : ChessBoardWidget toyE := finD d2

/-- Select the e7 pawn (pixel 240, 60). -/
def d4 : ChessBoardWidget toyE := clickD d3 240 60

/-- Click e5 (pixel 240, 180): the legal move e7e5 starts animating. -/
def d5 : ChessBoardWidget toyE := clickD d4 240 180

/-- The e7e5 animation completes and the move is committed. -/
def d6 : ChessBoardWidget toyE := finD d5

/-- Select the white pawn now on e4 (pixel 240, 240). -/
def d7 : ChessBoardWidget toyE := clickD d6 240 240

/-- Navigate one step back while e4 stays selected. -/
def d8 : ChessBoardWidget toyE := keyPressEvent toyE d7 Key.left

/-- Navigate back to the initial position; e4 is now empty but still
selected. -/
def d9 : ChessBoardWidget toyE := keyPressEvent toyE d8 Key.left

theorem reach_d1 : Reach toyE d1 :=
  Reach.click _ _ 240 360 Reach.init rfl

theorem reach_d2 : Reach toyE d2 :=
  Reach.click _ _ 240 240 reach_d1 rfl

theorem reach_d3 : Reach toyE d3 :=
  Reach.finish _ _ reach_d2 rfl rfl

theorem reach_d4 : Reach toyE d4 :=
  Reach.click _ _ 240 60 reach_d3 rfl

theorem reach_d5 : Reach toyE d5 :=
  Reach.click _ _ 240 180 reach_d4 rfl

theorem reach_d6 : Reach toyE d6 :=
  Reach.finish _ _ reach_d5 rfl rfl

theorem reach_d7 : Reach toyE d7 :=
  Reach.click _ _ 240 240 reach_d6 rfl

theorem reach_d8 : Reach toyE d8 :=
  Reach.key _ Key.left reach_d7

theorem reach_d9 : Reach toyE d9 :=
  Reach.key _ Key.left reach_d8

/-- Result state of a click on toyE2, defaulting to the input state if the
handler raises. -/
def clickW (s : ChessBoardWidget toyE2) (x y : Nat) : ChessBoardWidget toyE2 :=
  match mousePressEvent toyE2 s x y with
  | Except.ok s' => s'
  | Except.error _ => s

/-- Concrete run on toyE2: select the e2 pawn. -/
def w1 : ChessBoardWidget toyE2 := clickW (initState toyE2) 240 360

/-- Click e4: e2e4 starts animating. -/
def w2 : ChessBoardWidget toyE2 := clickW w1 240 240

/-- The animation completes; the resulting position has Black to move and
in check, so the king bounce is not stopped. -/
def w3 : ChessBoardWidget toyE2 :=
  match finishAnimation toyE2 w2 with
  | Except.ok s' => s'
  | Except.error _ => w2

/-- A repaint draws the checked black king and starts the king bounce. -/
def w4 : ChessBoardWidget toyE2 := paintEvent toyE2 w3

/-- Navigate one step back: the displayed position is no longer check, but
the king bounce animation is still running. -/
def w5 : ChessBoardWidget toyE2 := keyPressEvent toyE2 w4 Key.left

theorem reach_w4 : Reach toyE2 w4 :=
  Reach.paint _
    (Reach.finish _ _
      (Reach.click _ _ 240 240 (Reach.click _ _ 240 360 Reach.init rfl) rfl) rfl rfl)

theorem reach_w5 : Reach toyE2 w5 :=
  Reach.key _ Key.left reach_w4

/-- Outcome shapes of a mouse click that returns normally: the early return
while animating, a no-op click, a selection with its bounce, the start of
a validated move, or a cleared selection. -/
theorem mousePress_shape (E : RulesEngine) (s s' : ChessBoardWidget E) (x y : Nat)
    (h : mousePressEvent E s x y = Except.ok s') :
    s' = s
    ∨ (∃ sq, s' = bouncePiece E { s with selected_square := some sq })
    ∨ (∃ m, s' = { startAnimation E s m with selected_square := none })
    ∨ s' = { s with selected_square := none } := by
  unfold mousePressEvent at h
  split at h
  · injection h with h
    exact Or.inl h.symm
  · split at h
    · split at h
      · split at h
        · injection h with h
          exact Or.inr (Or.inl ⟨_, h.symm⟩)
        · injection h with h
          exact Or.inl h.symm
      · injection h with h
        exact Or.inl h.symm
    · split at h
      · exact Except.noConfusion h
      · dsimp only at h
        split at h
        · injection h with h
          exact Or.inr (Or.inr (Or.inl ⟨_, h.symm⟩))
        · injection h with h
          exact Or.inr (Or.inr (Or.inr h.symm))

/-- The truncation branch of finishAnimation always computes the take of
the history at the cursor. -/
theorem truncate_take (h : List Move) (c : Nat) :
    (if c < h.length then h.take c else h) = h.take c := by
  split
  · rfl
  · exact (List.take_of_length_le (Nat.le_of_not_lt (by assumption))).symm

/-- Replaying a snoc of a replayed prefix is one further push. -/
theorem replayTo_snoc (E : RulesEngine) (h : List Move) (c : Nat) (m : Move) :
    replayTo E (h.take c ++ [m]) (h.take c ++ [m]).length =
      E.push (replayTo E h c) m := by
  unfold replayTo
  rw [(h.take c ++ [m]).take_length, List.foldl_append]
  rfl

/-- Core state invariant of every reachable widget state: the displayed
board is the replay of the history prefix below the cursor, and a pending
move exists exactly while the move animation is running. -/
theorem reach_inv (E : RulesEngine) (s : ChessBoardWidget E) (h : Reach E s) :
    s.board = replayTo E s.move_history s.current_move_index ∧
    s.pending_move.isSome = s.animating := by
  induction h with
  | init => exact ⟨rfl, rfl⟩
  | click s s' x y hs hok ih =>
      rcases mousePress_shape E s s' x y hok with h1 | ⟨sq, h1⟩ | ⟨m, h1⟩ | h1 <;> subst h1
      · exact ih
      · exact ⟨ih.1, ih.2⟩
      · exact ⟨ih.1, rfl⟩
      · exact ih
  | key s k hs ih =>
      cases k with
      | left =>
          simp only [keyPressEvent]
          split
          · exact ⟨rfl, ih.2⟩
          · exact ih
      | right =>
          simp only [keyPressEvent]
          split
          · exact ⟨rfl, ih.2⟩
          · exact ih
      | other => exact ih
  | finish s s' hs hanim hok ih =>
      cases hp : s.pending_move with
      | none =>
          rw [finishAnimation, hp] at hok
          exact Except.noConfusion hok
      | some m =>
          rw [finishAnimation, hp] at hok
          simp only [truncate_take] at hok
          split at hok
          · injection hok with hok
            subst hok
            refine ⟨?_, rfl⟩
            dsimp only
            rw [replayTo_snoc, ← ih.1]
          · injection hok with hok
            subst hok
            unfold stopKingBounce
            split
            · refine ⟨?_, rfl⟩
              dsimp only
              rw [replayTo_snoc, ← ih.1]
            · refine ⟨?_, rfl⟩
              dsimp only
              rw [replayTo_snoc, ← ih.1]
  | paint s hs ih =>
      unfold paintEvent startKingBounce
      split
      · split
        · exact ih
        · exact ⟨ih.1, ih.2⟩
      · exact ih
  | tickMove s q hs ha ih => exact ⟨ih.1, ih.2⟩
  | tickBounce s q hs ha ih => exact ⟨ih.1, ih.2⟩
  | tickKing s q hs ha ih => exact ⟨ih.1, ih.2⟩

/-- C1: in every reachable state the displayed board equals the replay of
move_history[0:current_move_index] from the initial position via the rules
engine; the position built incrementally by the finishAnimation commits
coincides with a full resetBoardToIndex replay at the same history and
cursor; and recomputing the position again with unchanged history and
cursor changes nothing. -/
theorem C1_display_equals_replay (E : RulesEngine) (s : ChessBoardWidget E)
    (h : Reach E s) :
    s.board = replayTo E s.move_history s.current_move_index ∧
    (resetBoardToIndex E s).board = s.board ∧
    resetBoardToIndex E (resetBoardToIndex E s) = resetBoardToIndex E s := by
  refine ⟨(reach_inv E s h).1, ((reach_inv E s h).1).symm, rfl⟩

/-- Witness for C1 at the reachable toy state d6, reached by committing the
two moves e2e4 and e7e5. -/
theorem C1_display_equals_replay_witness :
    d6.board = replayTo toyE d6.move_history d6.current_move_index ∧
    (resetBoardToIndex toyE d6).board = d6.board ∧
    resetBoardToIndex toyE (resetBoardToIndex toyE d6) = resetBoardToIndex toyE d6 :=
  C1_display_equals_replay toyE d6 reach_d6

/-- C8: in every reachable state a pending move exists if and only if the
move animation is running, and the Option-typed pending_move holds at most
one move in flight. -/
theorem C8_pending_iff_animating (E : RulesEngine) (s : ChessBoardWidget E)
    (h : Reach E s) :
    (s.pending_move.isSome = true ↔ s.animating = true) ∧
    ∀ m1 m2 : Move, s.pending_move = some m1 → s.pending_move = some m2 → m1 = m2 := by
  refine ⟨by rw [(reach_inv E s h).2], ?_⟩
  intro m1 m2 h1 h2
  rw [h1] at h2
  exact Option.some.inj h2

/-- Witness for C8 at the reachable toy state d5, in which the move e7e5
is animating. -/
theorem C8_pending_iff_animating_witness :
    (d5.pending_move.isSome = true ↔ d5.animating = true) ∧
    ∀ m1 m2 : Move, d5.pending_move = some m1 → d5.pending_move = some m2 → m1 = m2 :=
  C8_pending_iff_animating toyE d5 reach_d5

/-- C2: committing a pending move m while the cursor sits strictly inside
the history truncates every move at an index at or above the cursor,
appends m, and sets the cursor to the new history length, which is the old
cursor plus one. -/
theorem C2_truncate_append (E : RulesEngine) (s s' : ChessBoardWidget E) (m : Move)
    (hp : s.pending_move = some m)
    (hc : s.current_move_index < s.move_history.length)
    (hf : finishAnimation E s = Except.ok s') :
    s'.move_history = s.move_history.take s.current_move_index ++ [m] ∧
    s'.current_move_index = s.current_move_index + 1 ∧
    s'.current_move_index = s'.move_history.length := by
  rw [finishAnimation, hp] at hf
  simp only [truncate_take] at hf
  have hlen : (s.move_history.take s.current_move_index ++ [m]).length =
      s.current_move_index + 1 := by
    rw [List.length_append, List.length_take]
    simp [Nat.min_eq_left (Nat.le_of_lt hc)]
  split at hf
  · injection hf with hf
    subst hf
    exact ⟨rfl, hlen, hlen.symm ▸ rfl⟩
  · injection hf with hf
    subst hf
    unfold stopKingBounce
    split
    · exact ⟨rfl, hlen, hlen.symm ▸ rfl⟩
    · exact ⟨rfl, hlen, hlen.symm ▸ rfl⟩

/-- Widget state realizing the spec example for truncation: history
[m1, m2, m3] with cursor 1 and a pending fourth move about to commit. -/
def c2state : ChessBoardWidget toyE :=
  { initState toyE with
      move_history := [⟨12, 28, none⟩, ⟨52, 36, none⟩, ⟨28, 36, none⟩]
      current_move_index := 1
      pending_move := some ⟨52, 44, none⟩
      animating := true }

/-- Result of committing the pending move of c2state. -/
def c2result : ChessBoardWidget toyE :=
  match finishAnimation toyE c2state with
  | Except.ok s' => s'
  | Except.error _ => c2state

/-- Witness for C2: committing m4 over history [m1, m2, m3] at cursor 1
yields history [m1, m4] and cursor 2. -/
theorem C2_truncate_append_witness :
    c2state.pending_move = some ⟨52, 44, none⟩ ∧
    c2state.current_move_index < c2state.move_history.length ∧
    (c2result.move_history = c2state.move_history.take c2state.current_move_index ++
        [(⟨52, 44, none⟩ : Move)] ∧
     c2result.current_move_index = c2state.current_move_index + 1 ∧
     c2result.current_move_index = c2result.move_history.length) :=
  ⟨rfl, by decide,
    C2_truncate_append toyE c2state c2result ⟨52, 44, none⟩ rfl (by decide) rfl⟩

/-- C6: on a second click with a square selected whose piece exists (the
selection invariant of an interactive state) and no animation running, the
constructed move is handed to the animator exactly when it belongs to the
engine's legal-move set for the current position; when it is not legal,
the only state change is that the selection is cleared. -/
theorem C6_legality_gate (E : RulesEngine) (s : ChessBoardWidget E) (x y sel : Nat)
    (p : Piece)
    (ha : s.animating = false)
    (hs : s.selected_square = some sel)
    (hp : E.piece_at s.board sel = some p) :
    (constructedMove p sel (squareAt x y) ∈ E.legal_moves s.board →
      mousePressEvent E s x y =
        Except.ok { startAnimation E s (constructedMove p sel (squareAt x y)) with
                      selected_square := none }) ∧
    (constructedMove p sel (squareAt x y) ∉ E.legal_moves s.board →
      mousePressEvent E s x y = Except.ok { s with selected_square := none }) := by
  constructor
  · intro hm
    unfold mousePressEvent
    rw [ha, hs]
    rw [if_neg (show ¬((false : Bool) = true) by decide)]
    dsimp only
    rw [hp]
    dsimp only
    rw [if_pos hm]
  · intro hm
    unfold mousePressEvent
    rw [ha, hs]
    rw [if_neg (show ¬((false : Bool) = true) by decide)]
    dsimp only
    rw [hp]
    dsimp only
    rw [if_neg hm]

/-- Witness for C6 at the reachable toy state d4 (black pawn on e7
selected): the click on e5 builds the legal move e7e5 and hands it to the
animator. -/
theorem C6_legality_gate_witness :
    d4.animating = false ∧
    d4.selected_square = some 52 ∧
    toyE.piece_at d4.board 52 = some ⟨1, false⟩ ∧
    ((constructedMove ⟨1, false⟩ 52 (squareAt 240 180) ∈ toyE.legal_moves d4.board →
      mousePressEvent toyE d4 240 180 =
        Except.ok { startAnimation toyE d4
            (constructedMove ⟨1, false⟩ 52 (squareAt 240 180)) with
              selected_square := none }) ∧
     (constructedMove ⟨1, false⟩ 52 (squareAt 240 180) ∉ toyE.legal_moves d4.board →
      mousePressEvent toyE d4 240 180 =
        Except.ok { d4 with selected_square := none })) :=
  ⟨rfl, rfl, rfl, C6_legality_gate toyE d4 240 180 52 ⟨1, false⟩ rfl rfl rfl⟩

/-- C10: whenever a square is selected, no animation is running, and the
click handler returns normally, the resulting state has no selection: a
single click never transfers the selection to another square. -/
theorem C10_second_click_clears (E : RulesEngine) (s s' : ChessBoardWidget E)
    (x y sel : Nat)
    (ha : s.animating = false)
    (hs : s.selected_square = some sel)
    (hok : mousePressEvent E s x y = Except.ok s') :
    s'.selected_square = none := by
  unfold mousePressEvent at hok
  rw [ha, hs] at hok
  rw [if_neg (show ¬((false : Bool) = true) by decide)] at hok
  dsimp only at hok
  split at hok
  · exact Except.noConfusion hok
  · split at hok
    · injection hok with hok
      rw [← hok]
    · injection hok with hok
      rw [← hok]

/-- Witness for C10: the second click at e5 from the reachable state d4
clears the selection (d5 has none selected). -/
theorem C10_second_click_clears_witness :
    d4.animating = false ∧
    d4.selected_square = some 52 ∧
    mousePressEvent toyE d4 240 180 = Except.ok d5 ∧
    d5.selected_square = none :=
  ⟨rfl, rfl, rfl, C10_second_click_clears toyE d4 d5 240 180 52 rfl rfl rfl⟩

/-- Counterexample to C4: in the reachable state d7 the white pawn on e4
(square 28) is selected; pressing the left arrow performs a successful
back step (cursor 2 to 1) yet the selection is not cleared. -/
theorem C4_cex_navigation_keeps_selection :
    Reach toyE d7 ∧
    d7.selected_square = some 28 ∧
    d7.current_move_index = 2 ∧
    (keyPressEvent toyE d7 Key.left).current_move_index = 1 ∧
    (keyPressEvent toyE d7 Key.left).selected_square = some 28 ∧
    (keyPressEvent toyE d7 Key.left).selected_square ≠ none :=
  ⟨reach_d7, rfl, rfl, rfl, rfl, by decide⟩

/-- Amended C4: history navigation never touches the selection; after
back() or forward() (or any other key) the selected square is exactly what
it was before, whether or not the cursor moved. -/
theorem C4_navigation_preserves_selection (E : RulesEngine) (s : ChessBoardWidget E)
    (k : Key) :
    (keyPressEvent E s k).selected_square = s.selected_square := by
  cases k with
  | left =>
      simp only [keyPressEvent]
      split <;> rfl
  | right =>
      simp only [keyPressEvent]
      split <;> rfl
  | other => rfl

/-- Counterexample to C5: the reachable state d5 is animating the move
e7e5 with cursor 1, yet pressing the left arrow is not rejected: the
cursor drops to 0 and the displayed board changes (its side to move
flips). -/
theorem C5_cex_navigation_during_animation :
    Reach toyE d5 ∧
    d5.animating = true ∧
    d5.current_move_index = 1 ∧
    (keyPressEvent toyE d5 Key.left).current_move_index = 0 ∧
    toyE.turn (keyPressEvent toyE d5 Key.left).board ≠ toyE.turn d5.board :=
  ⟨reach_d5, rfl, rfl, rfl, by decide⟩

/-- Amended C5: keyPressEvent never consults the animating flag, so
history navigation during an animation behaves exactly as when idle; the
core relies on the external input layer never to deliver navigation while
a move is in flight. -/
theorem C5_navigation_ignores_animating (E : RulesEngine) (s : ChessBoardWidget E)
    (k : Key) (b : Bool) :
    keyPressEvent E { s with animating := b } k =
      { keyPressEvent E s k with animating := b } := by
  cases k with
  | left =>
      by_cases hc : 0 < s.current_move_index
      · simp only [keyPressEvent]
        rw [if_pos hc, if_pos hc]
        rfl
      · simp only [keyPressEvent]
        rw [if_neg hc, if_neg hc]
  | right =>
      by_cases hc : s.current_move_index < s.move_history.length
      · simp only [keyPressEvent]
        rw [if_pos hc, if_pos hc]
        rfl
      · simp only [keyPressEvent]
        rw [if_neg hc, if_neg hc]
  | other => rfl

/-- Counterexample to C9: after committing e2e4 on toyE2 the black side is
in check and a repaint starts the king bounce; a back step then reaches a
reachable state whose displayed position is not check while the king
bounce animation is still running. -/
theorem C9_cex_bounce_survives_navigation :
    Reach toyE2 w5 ∧
    toyE2.is_check w5.board = false ∧
    w5.kingBounceAnim = true :=
  ⟨reach_w5, rfl, rfl⟩

/-- C3 is a code bug: the state d9 is reachable (select the pawn on e4,
then navigate back to the initial position, where e4 is empty and the
selection is still set), and the next click dereferences
piece_at(selected).piece_type on an empty square, raising AttributeError
instead of completing; the widget is left unchanged because the raise
happens before any mutation. -/
theorem C3_click_crash_on_stale_selection :
    Reach toyE d9 ∧
    d9.selected_square = some 28 ∧
    toyE.piece_at d9.board 28 = none ∧
    mousePressEvent toyE d9 0 420 = Except.error () :=
  ⟨reach_d9, rfl, rfl, rfl⟩

/-- Amended C9: starting the king bounce while one is running is a no-op
(never two concurrent instances); when a move commit yields a non-check
position the bounce is stopped with its scale reset to 1.0; and a repaint
of a non-check position never starts a bounce.  History navigation,
however, does not stop a running bounce, so a reachable state can show a
non-check position while the bounce still runs (see the counterexample). -/
theorem C9_king_bounce_amended (E : RulesEngine) (s s' : ChessBoardWidget E)
    (hrun : s.kingBounceAnim = true)
    (hfin : finishAnimation E s = Except.ok s') :
    startKingBounce E s = s ∧
    (E.is_check s'.board = false →
      s'.kingBounceAnim = false ∧ s'.kingBounceScale = 1) ∧
    (∀ t : ChessBoardWidget E, E.is_check t.board = false → paintEvent E t = t) := by
  refine ⟨?_, ?_, ?_⟩
  · unfold startKingBounce
    rw [hrun, if_pos rfl]
  · intro hcheck
    cases hp : s.pending_move with
    | none =>
        rw [finishAnimation, hp] at hfin
        exact Except.noConfusion hfin
    | some m =>
        rw [finishAnimation, hp] at hfin
        dsimp only at hfin
        split at hfin
        · injection hfin with hfin
          subst hfin
          rename_i hch
          exact Bool.noConfusion (hch.symm.trans hcheck)
        · injection hfin with hfin
          subst hfin
          unfold stopKingBounce
          dsimp only
          rw [hrun, if_pos rfl]
          exact ⟨rfl, rfl⟩
  · intro t hcheck
    unfold paintEvent
    rw [hcheck, Bool.false_and, if_neg (show ¬((false : Bool) = true) by decide)]

/-- State exercising the amended C9: the king bounce is running while the
move that returns to a non-check position is animating. -/
def c9state : ChessBoardWidget toyE2 :=
  { initState toyE2 with
      board := toyE2.push toyE2.reset ⟨12, 28, none⟩
      kingBounceAnim := true
      pending_move := some ⟨60, 52, none⟩
      animating := true }

/-- Result of committing the pending move of c9state; the resulting
position has White to move, hence is not check, and the bounce stops. -/
def c9result : ChessBoardWidget toyE2 :=
  match finishAnimation toyE2 c9state with
  | Except.ok s' => s'
  | Except.error _ => c9state

/-- Witness for the amended C9 at a concrete state with the bounce
running: the commit lands in a non-check position and stops the bounce,
resetting the scale. -/
theorem C9_king_bounce_amended_witness :
    c9state.kingBounceAnim = true ∧
    finishAnimation toyE2 c9state = Except.ok c9result ∧
    (startKingBounce toyE2 c9state = c9state ∧
     (toyE2.is_check c9result.board = false →
       c9result.kingBounceAnim = false ∧ c9result.kingBounceScale = 1) ∧
     (∀ t : ChessBoardWidget toyE2, toyE2.is_check t.board = false →
       paintEvent toyE2 t = t)) :=
  ⟨rfl, rfl, C9_king_bounce_amended toyE2 c9state c9result rfl rfl⟩

/-- C7: for a selected origin and a legal capture move from it, the
display's killable square is computed from the source rule: for an
en-passant capture by a White piece (destination on rank index 5, so
to_square is at least 8) it is the square one rank behind the destination
and never the destination itself; for an en-passant capture by a Black
piece it is the square one rank ahead of the destination and never the
destination itself; for every other capture it is the destination; and the
computed square is among the killable squares collected for the origin. -/
theorem C7_en_passant_killable (E : RulesEngine) (pos : E.Position) (sel : Nat)
    (m : Move) (p : Piece)
    (hm : m ∈ E.legal_moves pos)
    (hfrom : m.from_square = sel)
    (hcap : E.is_capture pos m = true) :
    (E.is_en_passant pos m = true → E.piece_at pos m.from_square = some p →
      (p.pcolor = true → 8 ≤ m.to_square →
        capturedSquare E pos m = m.to_square - 8 ∧
        capturedSquare E pos m ≠ m.to_square ∧
        capturedSquare E pos m / 8 + 1 = m.to_square / 8) ∧
      (p.pcolor = false →
        capturedSquare E pos m = m.to_square + 8 ∧
        capturedSquare E pos m ≠ m.to_square ∧
        capturedSquare E pos m / 8 = m.to_square / 8 + 1)) ∧
    (E.is_en_passant pos m = false → capturedSquare E pos m = m.to_square) ∧
    capturedSquare E pos m ∈ killable_squares E pos sel := by
  refine ⟨?_, ?_, ?_⟩
  · intro hep hpiece
    constructor
    · intro hw hto
      have hcs : capturedSquare E pos m = m.to_square - 8 := by
        unfold capturedSquare
        rw [hep, if_pos rfl, hpiece]
        dsimp only
        rw [hw, if_pos rfl]
      refine ⟨hcs, ?_, ?_⟩
      · rw [hcs]; omega
      · rw [hcs]; omega
    · intro hb
      have hcs : capturedSquare E pos m = m.to_square + 8 := by
        unfold capturedSquare
        rw [hep, if_pos rfl, hpiece]
        dsimp only
        rw [hb]
        rw [if_neg (show ¬((false : Bool) = true) by decide)]
      refine ⟨hcs, ?_, ?_⟩
      · rw [hcs]; omega
      · rw [hcs]; omega
  · intro hep
    unfold capturedSquare
    rw [hep]
    rw [if_neg (show ¬((false : Bool) = true) by decide)]
  · unfold killable_squares
    refine List.mem_map.mpr ⟨m, ?_, rfl⟩
    refine List.mem_filter.mpr ⟨hm, ?_⟩
    rw [hfrom, hcap]
    simp

/-- Rules-engine instance with a single legal move, an en-passant capture
by a White pawn on e5 (square 36) landing on d6 (square 43); the captured
pawn stands on d5 (square 35). -/
def epEngine : RulesEngine where
  Position := Unit
  reset := ()
  push := fun _ _ => ()
  legal_moves := fun _ => [⟨36, 43, none⟩]
  piece_at := fun _ sq => if sq == 36 then some ⟨1, true⟩ else none
  turn := fun _ => true
  is_check := fun _ => false
  is_capture := fun _ _ => true
  is_en_passant := fun _ _ => true

/-- Witness for C7 on epEngine: the killable square of the White
en-passant capture e5xd6 is d5 (square 35 = 43 - 8), one rank behind the
destination and distinct from it. -/
theorem C7_en_passant_killable_witness :
    (⟨36, 43, none⟩ : Move) ∈ epEngine.legal_moves () ∧
    (⟨36, 43, none⟩ : Move).from_square = 36 ∧
    epEngine.is_capture () ⟨36, 43, none⟩ = true ∧
    ((epEngine.is_en_passant () ⟨36, 43, none⟩ = true →
      epEngine.piece_at () (⟨36, 43, none⟩ : Move).from_square = some ⟨1, true⟩ →
      ((⟨1, true⟩ : Piece).pcolor = true → 8 ≤ (⟨36, 43, none⟩ : Move).to_square →
        capturedSquare epEngine () ⟨36, 43, none⟩ = (⟨36, 43, none⟩ : Move).to_square - 8 ∧
        capturedSquare epEngine () ⟨36, 43, none⟩ ≠ (⟨36, 43, none⟩ : Move).to_square ∧
        capturedSquare epEngine () ⟨36, 43, none⟩ / 8 + 1 =
          (⟨36, 43, none⟩ : Move).to_square / 8) ∧
      ((⟨1, true⟩ : Piece).pcolor = false →
        capturedSquare epEngine () ⟨36, 43, none⟩ = (⟨36, 43, none⟩ : Move).to_square + 8 ∧
        capturedSquare epEngine () ⟨36, 43, none⟩ ≠ (⟨36, 43, none⟩ : Move).to_square ∧
        capturedSquare epEngine () ⟨36, 43, none⟩ / 8 =
          (⟨36, 43, none⟩ : Move).to_square / 8 + 1)) ∧
     (epEngine.is_en_passant () ⟨36, 43, none⟩ = false →
       capturedSquare epEngine () ⟨36, 43, none⟩ = (⟨36, 43, none⟩ : Move).to_square) ∧
     capturedSquare epEngine () ⟨36, 43, none⟩ ∈ killable_squares epEngine () 36) :=
  ⟨by decide, rfl, rfl,
    C7_en_passant_killable epEngine () 36 ⟨36, 43, none⟩ ⟨1, true⟩ (by decide) rfl rfl⟩

/-- Counterexample to C6 as stated: in the reachable state d9 square e4
(28) is selected but empty; the second click on a1 is an attempted move
that is not legal, yet the handler neither hands a move to the animator
nor clears the selection — it raises, leaving every field (including the
selection) untouched. -/
theorem C6_cex_crash_instead_of_clear :
    Reach toyE d9 ∧
    d9.selected_square = some 28 ∧
    d9.animating = false ∧
    mousePressEvent toyE d9 0 420 = Except.error () ∧
    mousePressEvent toyE d9 0 420 ≠ Except.ok { d9 with selected_square := none } ∧
    (∀ m : Move, mousePressEvent toyE d9 0 420 ≠
        Except.ok { startAnimation toyE d9 m with selected_square := none }) := by
  refine ⟨reach_d9, rfl, rfl, rfl, ?_, ?_⟩
  · intro h
    rw [show mousePressEvent toyE d9 0 420 = Except.error () from rfl] at h
    exact Except.noConfusion h
  · intro m h
    rw [show mousePressEvent toyE d9 0 420 = Except.error () from rfl] at h
    exact Except.noConfusion h

/-- Counterexample to C10 as stated: in the reachable state d9 a square is
selected and no animation runs, yet the next click does not clear the
selection — no post-click state exists at all, because the handler raises
before reaching the clearing assignment, and the selection stays set. -/
theorem C10_cex_click_leaves_selection :
    Reach toyE d9 ∧
    d9.selected_square = some 28 ∧
    d9.animating = false ∧
    (∀ s' : ChessBoardWidget toyE,
      mousePressEvent toyE d9 0 420 = Except.ok s' → False) := by
  refine ⟨reach_d9, rfl, rfl, ?_⟩
  intro s' h
  rw [show mousePressEvent toyE d9 0 420 = Except.error () from rfl] at h
  exact Except.noConfusion h
